import Mathlib

set_option linter.unusedVariables false

/- Shallow embedding of the fyers_trading_strategy backtesting engine
   (indicators.py, strategies.py, backtester.py).

   Modelling conventions:
   * Python floats are modelled as rationals (ℚ).
   * A pandas NaN entry is modelled as `none : Option ℚ`; any comparison
     against a NaN entry is `false`, matching Python semantics.
   * Fallible external fetches (daily option closes, the option chain)
     are functions into `Option`, `none` standing for the empty/absent
     response of FyersClient.
   * Python dict records become structures; the aliasing between
     `self.positions` (the open set) and `self.trades` (the append-only
     history) is modelled by keeping the store of all created positions
     in `BtState.trades` and representing the open set `BtState.openIdx`
     as a list of indices into that store. -/

/-- One OHLCV candle, Fyers format [timestamp, open, high, low, close, volume]. -/
structure Candle where
  ts : ℤ
  op : ℚ
  hi : ℚ
  lo : ℚ
  close : ℚ
  vol : ℚ
deriving DecidableEq, Repr

/-- One contract of the option chain snapshot. -/
structure OptionContract where
  symbol : String
  option_type : String
  strike_price : ℚ
  ltp : ℚ
  delta : ℚ
deriving DecidableEq, Repr

/-- One leg of a position: an action ("BUY"/"SELL") on a contract. -/
structure Leg where
  action : String
  option : OptionContract
deriving DecidableEq, Repr

/-- The position record created by Backtester._execute_trade. -/
structure Position where
  strategy : String
  legs : List Leg
  entry_premium : ℚ
  margin_required : ℚ
  pnl : ℚ
  status : String
deriving DecidableEq, Repr

/-- The signal dict returned by the entry-signal checks. -/
structure Signal where
  signal : String
  strategy : String
deriving DecidableEq, Repr

/-- The configured constants read from config.py together with the
backtester's initial capital (config.py itself is not part of the core
source; the constants are parameters of the model). -/
structure Config where
  initial_capital : ℚ
  capital_alloc : ℚ
  sl_pct : ℚ
  tp_pct : ℚ
  vix_threshold : ℚ

/-- The mutable ledger state of a Backtester: cash, the open set
(indices into the trade store) and the append-only trade store. -/
structure BtState where
  cash : ℚ
  openIdx : List ℕ
  trades : List Position
deriving DecidableEq, Repr

/-- Executable absolute value on ℚ (Python abs); kernel-reducible, equal
to Mathlib's lattice-based abs by absQ_eq_abs. -/
def absQ (x : ℚ) : ℚ :=
  if x < 0 then -x else x

/-- Executable binary max on ℚ (Python max); kernel-reducible, equal to
Mathlib's max by maxQ_eq_max. -/
def maxQ (a b : ℚ) : ℚ :=
  if a ≤ b then b else a

/- ----------------------------------------------------------------
   indicators.py
   ---------------------------------------------------------------- -/

/-- Close column of a candle list (df['close']). -/
def closesOf (data : List Candle) : List ℚ :=
  data.map (fun c => c.close)

/-- Value of pandas Series.rolling(window=period).mean() at index i:
the mean of entries i-period+1 .. i, NaN (`none`) while fewer than
`period` entries are available. -/
def windowMean (xs : List ℚ) (period i : ℕ) : Option ℚ :=
  if period ≤ i + 1 ∧ i < xs.length then
    some (((xs.drop (i + 1 - period)).take period).sum / (period : ℚ))
  else
    none

/-- The rolling-mean series over a close column. -/
def smaSeries (xs : List ℚ) (period : ℕ) : List (Option ℚ) :=
  (List.range xs.length).map (fun i => windowMean xs period i)

/-- indicators.calculate_sma: None when the series is shorter than the
period, otherwise the rolling mean series (leading entries NaN). -/
def calculate_sma (data : List Candle) (period : ℕ) : Option (List (Option ℚ)) :=
  if data.length < period then none
  else some (smaSeries (closesOf data) period)

/-- Per-index positive price change, with the first diff (NaN in pandas)
masked to 0 by `delta.where(delta > 0, 0)`. Auxiliary recursion carrying
the previous close. -/
def gainsAux (prev : ℚ) : List ℚ → List ℚ
  | [] => []
  | c :: rest => max (c - prev) 0 :: gainsAux c rest

/-- Masked gain series of calculate_rsi. -/
def gains : List ℚ → List ℚ
  | [] => []
  | c :: rest => 0 :: gainsAux c rest

/-- Per-index positive price drop, first entry masked to 0. -/
def lossesAux (prev : ℚ) : List ℚ → List ℚ
  | [] => []
  | c :: rest => max (prev - c) 0 :: lossesAux c rest

/-- Masked loss series of calculate_rsi. -/
def losses : List ℚ → List ℚ
  | [] => []
  | c :: rest => 0 :: lossesAux c rest

/-- RSI value at one index: 100 - 100/(1 + gain/loss) with the pandas
float conventions: gain/loss NaN while the rolling windows are not full,
rs = +inf when loss = 0 < gain (rsi 100), rs = NaN when gain = loss = 0. -/
def rsiAt (cs : List ℚ) (period i : ℕ) : Option ℚ :=
  match windowMean (gains cs) period i, windowMean (losses cs) period i with
  | some g, some l =>
      if l = 0 then (if g = 0 then none else some 100)
      else some (100 - 100 / (1 + g / l))
  | _, _ => none

/-- indicators.calculate_rsi: None when the series is shorter than the
period, otherwise the RSI series (leading entries NaN). -/
def calculate_rsi (data : List Candle) (period : ℕ) : Option (List (Option ℚ)) :=
  if data.length < period then none
  else some ((List.range data.length).map (fun i => rsiAt (closesOf data) period i))

/- ----------------------------------------------------------------
   strategies.py
   ---------------------------------------------------------------- -/

/-- Series.iloc[-k] on a series that may hold NaN entries; `none` both
for a NaN entry and for k out of range (Python would raise IndexError
in the latter case, which no reachable call of the source does). -/
def ilocNeg (xs : List (Option ℚ)) (k : ℕ) : Option ℚ :=
  if 1 ≤ k ∧ k ≤ xs.length then
    match xs.get? (xs.length - k) with
    | some v => v
    | none => none
  else none

/-- Comparison a ≤ b on possibly-NaN values; false when either is NaN. -/
def oLE (a b : Option ℚ) : Bool :=
  match a, b with
  | some x, some y => decide (x ≤ y)
  | _, _ => false

/-- Comparison a < b on possibly-NaN values; false when either is NaN. -/
def oLT (a b : Option ℚ) : Bool :=
  match a, b with
  | some x, some y => decide (x < y)
  | _, _ => false

/-- Strategy.check_exit_conditions: "SL" when pnl ≤ -1 * sl_pct *
entry_premium, else "TP" when pnl ≥ tp_pct * entry_premium, else None. -/
def Strategy.check_exit_conditions (sl_pct tp_pct : ℚ) (position : Position) : Option String :=
  if position.pnl ≤ -1 * sl_pct * position.entry_premium then some "SL"
  else if position.pnl ≥ tp_pct * position.entry_premium then some "TP"
  else none

/-- DirectionalStrategy.check_entry_signal: MA crossover of the last two
short/long SMA values, confirmed by RSI against the 50 centerline. -/
def DirectionalStrategy.check_entry_signal (short_ma_period long_ma_period rsi_period : ℕ)
    (data : List Candle) : Option Signal :=
  match calculate_sma data short_ma_period, calculate_sma data long_ma_period,
        calculate_rsi data rsi_period with
  | some short_ma, some long_ma, some rsi =>
      let last_short_ma := ilocNeg short_ma 1
      let last_long_ma := ilocNeg long_ma 1
      let prev_short_ma := ilocNeg short_ma 2
      let prev_long_ma := ilocNeg long_ma 2
      let last_rsi := ilocNeg rsi 1
      if oLE prev_short_ma prev_long_ma && oLT last_long_ma last_short_ma
          && oLT (some 50) last_rsi then
        some ⟨"BUY", "Bull Put Spread"⟩
      else if oLE prev_long_ma prev_short_ma && oLT last_short_ma last_long_ma
          && oLT last_rsi (some 50) then
        some ⟨"SELL", "Bear Call Spread"⟩
      else none
  | _, _, _ => none

/-- NonDirectionalStrategy.check_entry_signal: Short Straddle when the
VIX value exceeds the configured threshold. -/
def NonDirectionalStrategy.check_entry_signal (vix_threshold vix_value : ℚ) : Option Signal :=
  if vix_value > vix_threshold then some ⟨"SELL", "Short Straddle"⟩
  else none

/- ----------------------------------------------------------------
   backtester.py
   ---------------------------------------------------------------- -/

/-- The selection key of Backtester._find_option: abs(abs(delta) - target). -/
def delta_diff (option : OptionContract) (target_delta : ℚ) : ℚ :=
  absQ (absQ option.delta - target_delta)

/-- Loop of Backtester._find_option, carrying (best_option, min_delta_diff);
`none` stands for the initial (None, inf) pair, and a candidate replaces
the best only on a strictly smaller key. -/
def find_option_go (target_delta : ℚ) (option_type : String) :
    List OptionContract → Option (OptionContract × ℚ) → Option (OptionContract × ℚ)
  | [], best => best
  | o :: rest, best =>
    if o.option_type = option_type then
      match best with
      | none => find_option_go target_delta option_type rest (some (o, delta_diff o target_delta))
      | some (b, m) =>
        if delta_diff o target_delta < m then
          find_option_go target_delta option_type rest (some (o, delta_diff o target_delta))
        else
          find_option_go target_delta option_type rest (some (b, m))
    else
      find_option_go target_delta option_type rest best

/-- Backtester._find_option on the options_chain list of the snapshot. -/
def find_option (option_chain : List OptionContract) (target_delta : ℚ)
    (option_type : String) : Option OptionContract :=
  (find_option_go target_delta option_type option_chain none).map Prod.fst

/-- Leg resolution and pricing part of Backtester._execute_trade: the
per-strategy (legs, net_premium, margin_required) triple, `none` when a
required contract is not found (early return in the source); a strategy
label matching no branch falls through with ([], 0, 0). -/
def resolve_legs (option_chain : List OptionContract) (strategy_type : String) :
    Option (List Leg × ℚ × ℚ) :=
  if strategy_type = "Bull Put Spread" then
    match find_option option_chain (6/10) "PE", find_option option_chain (3/10) "PE" with
    | some put_to_sell, some put_to_buy =>
      let net_premium := put_to_sell.ltp - put_to_buy.ltp
      some ([⟨"SELL", put_to_sell⟩, ⟨"BUY", put_to_buy⟩], net_premium,
            (put_to_sell.strike_price - put_to_buy.strike_price) - net_premium)
    | _, _ => none
  else if strategy_type = "Bear Call Spread" then
    match find_option option_chain (6/10) "CE", find_option option_chain (3/10) "CE" with
    | some call_to_sell, some call_to_buy =>
      let net_premium := call_to_sell.ltp - call_to_buy.ltp
      some ([⟨"SELL", call_to_sell⟩, ⟨"BUY", call_to_buy⟩], net_premium,
            (call_to_buy.strike_price - call_to_sell.strike_price) - net_premium)
    | _, _ => none
  else if strategy_type = "Short Straddle" then
    match find_option option_chain (1/2) "CE", find_option option_chain (1/2) "PE" with
    | some atm_call, some atm_put =>
      some ([⟨"SELL", atm_call⟩, ⟨"SELL", atm_put⟩], atm_call.ltp + atm_put.ltp,
            maxQ atm_call.strike_price atm_put.strike_price * (1/5))
    | _, _ => none
  else some ([], 0, 0)

/-- Backtester._execute_trade: abort with no state change when the chain
is absent, a leg is unresolved, or a risk-gate check fires; otherwise
append the new OPEN position to the open set and the trade history and
debit cash by the margin. current_price is accepted and unused, as in
the source. -/
def execute_trade (cfg : Config) (option_chain : Option (List OptionContract))
    (signal_details : Signal) (current_price : ℚ) (st : BtState) : BtState :=
  match option_chain with
  | none => st
  | some chain =>
    match resolve_legs chain signal_details.strategy with
    | none => st
    | some (trade_legs, net_premium, margin_required) =>
      if margin_required ≤ 0 ∨ margin_required > st.cash then st
      else if margin_required > cfg.initial_capital * cfg.capital_alloc then st
      else
        { cash := st.cash - margin_required
          openIdx := st.openIdx ++ [st.trades.length]
          trades := st.trades ++ [⟨signal_details.strategy, trade_legs, net_premium,
                                   margin_required, 0, "OPEN"⟩] }

/-- Per-leg settlement loop of Backtester._handle_eod_exits: signed
accumulation of leg closing prices (SELL subtracts, BUY adds), `none`
as soon as any leg's daily close is unobtainable. -/
def settleLegsAux (env : String → Option ℚ) (acc : ℚ) : List Leg → Option ℚ
  | [] => some acc
  | leg :: rest =>
    match env leg.option.symbol with
    | some close_price =>
        settleLegsAux env (if leg.action = "SELL" then acc - close_price else acc + close_price) rest
    | none => none

/-- current_net_premium of a leg list at settlement, starting from 0. -/
def settleLegs (env : String → Option ℚ) (legs : List Leg) : Option ℚ :=
  settleLegsAux env 0 legs

/-- Body of the per-position loop of Backtester._handle_eod_exits for the
position stored at index idx: skip unless the stored position is OPEN and
every leg's close is obtainable; otherwise store the recomputed pnl, and
on an exit signal flip the status to CLOSED, credit cash by
margin_required + pnl, and remove the index from the open set. -/
def settlePosition (cfg : Config) (env : String → Option ℚ) (st : BtState) (idx : ℕ) : BtState :=
  match st.trades.get? idx with
  | none => st
  | some position =>
    if position.status = "OPEN" then
      match settleLegs env position.legs with
      | none => st
      | some current_net_premium =>
        let pnl := position.entry_premium - current_net_premium
        let updated := { position with pnl := pnl }
        match Strategy.check_exit_conditions cfg.sl_pct cfg.tp_pct updated with
        | some _ =>
          { cash := st.cash + position.margin_required + pnl
            openIdx := st.openIdx.erase idx
            trades := st.trades.set idx { updated with status := "CLOSED" } }
        | none => { st with trades := st.trades.set idx updated }
    else st

/-- Backtester._handle_eod_exits: settle every position of a snapshot of
the open set (the source iterates over self.positions[:]). env maps an
option symbol to its daily close for the day under settlement. -/
def handle_eod_exits (cfg : Config) (env : String → Option ℚ) (st : BtState) : BtState :=
  st.openIdx.foldl (settlePosition cfg env) st

/-- External data available to a run: the option chain snapshot fetched
at a given candle timestamp, and per-day per-symbol option closes. -/
structure Env where
  chain : ℤ → Option (List OptionContract)
  eodClose : ℤ → String → Option ℚ

/-- Python float truthiness of the looked-up VIX value: falsy when the
key is absent and also when the value is exactly 0. -/
def vixTruthy : Option ℚ → Bool
  | none => false
  | some v => v != 0

/-- vix_map built by the dict comprehension (later candles overwrite
earlier ones with the same timestamp). -/
def vixLookup (vix_data : List Candle) (ts : ℤ) : Option ℚ :=
  (vix_data.reverse.find? (fun c => c.ts == ts)).map (fun c => c.close)

/-- Fresh ledger state of Backtester.__init__. -/
def initState (cfg : Config) : BtState :=
  ⟨cfg.initial_capital, [], []⟩

/-- Signal-evaluation part of one retained iteration of the main loop of
run_backtest: the directional check on the candle slice, then, only when
the VIX lookup is truthy, the non-directional check; each signal triggers
one execute_trade at the current close. -/
def loopStep (cfg : Config) (env : Env) (vmap : ℤ → Option ℚ) (data_slice : List Candle)
    (current_candle : Candle) (st : BtState) : BtState :=
  let current_price := current_candle.close
  let st1 :=
    match DirectionalStrategy.check_entry_signal 21 55 14 data_slice with
    | some dir_signal => execute_trade cfg (env.chain current_candle.ts) dir_signal current_price st
    | none => st
  let current_vix := vmap current_candle.ts
  if vixTruthy current_vix then
    match NonDirectionalStrategy.check_entry_signal cfg.vix_threshold (current_vix.getD 0) with
    | some non_dir_signal =>
        execute_trade cfg (env.chain current_candle.ts) non_dir_signal current_price st1
    | none => st1
  else st1

/-- One index of the main loop of run_backtest, threading (state, prev_day):
indices below the long-MA lookback (55, the default of the
DirectionalStrategy constructed by Backtester.__init__) are skipped; on a
day transition the previous day's EOD settlement runs first. -/
def loopBody (cfg : Config) (env : Env) (dayOf : ℤ → ℤ) (underlying_data : List Candle)
    (vmap : ℤ → Option ℚ) (acc : BtState × Option ℤ) (i : ℕ) : BtState × Option ℤ :=
  if i < 55 then acc
  else
    match underlying_data.get? i with
    | none => acc
    | some current_candle =>
      let current_day := dayOf current_candle.ts
      let st0 :=
        match acc.2 with
        | some prev_day =>
            if current_day ≠ prev_day then
              handle_eod_exits cfg (env.eodClose prev_day) acc.1
            else acc.1
        | none => acc.1
      (loopStep cfg env vmap (underlying_data.take (i + 1)) current_candle st0, some current_day)

/-- The final report printed by Backtester.generate_report. pnl_pct uses
ℚ division (the source would raise ZeroDivisionError at
initial_capital = 0, a configuration no caller uses). -/
structure Report where
  final_capital : ℚ
  total_pnl : ℚ
  pnl_pct : ℚ
  num_trades : ℕ
  num_wins : ℕ
  num_losses : ℕ
  win_rate : ℚ
deriving DecidableEq, Repr

/-- Backtester.generate_report on a final ledger state. -/
def generate_report (cfg : Config) (st : BtState) : Report :=
  let final_capital := st.cash
  let total_pnl := final_capital - cfg.initial_capital
  let pnl_pct := total_pnl / cfg.initial_capital * 100
  let num_trades := st.trades.length
  let num_wins := (st.trades.filter (fun t => decide (0 < t.pnl))).length
  let num_losses := (st.trades.filter (fun t => decide (t.pnl ≤ 0))).length
  let win_rate := if 0 < num_trades then ((num_wins : ℚ) / (num_trades : ℚ)) * 100 else 0
  ⟨final_capital, total_pnl, pnl_pct, num_trades, num_wins, num_losses, win_rate⟩

/-- Outcome of run_backtest: early abort with no report on an empty input
series, an uncaught Python exception, or a completed report. -/
inductive RunResult where
  | aborted
  | crashed (msg : String)
  | report (r : Report)
deriving DecidableEq, Repr

/-- Backtester.run_backtest over pre-fetched candle series. dayOf models
datetime.datetime.fromtimestamp(ts).date(). After the loop the source
calls _handle_eod_exits(prev_day) unconditionally; when prev_day is still
None that call raises AttributeError on None.strftime, modelled as
`crashed`. -/
def run_backtest (cfg : Config) (env : Env) (dayOf : ℤ → ℤ)
    (underlying_data vix_data : List Candle) : RunResult :=
  if underlying_data.isEmpty || vix_data.isEmpty then .aborted
  else
    let vmap := vixLookup vix_data
    let res := (List.range underlying_data.length).foldl
      (loopBody cfg env dayOf underlying_data vmap) (initState cfg, none)
    match res.2 with
    | none => .crashed "AttributeError: NoneType has no attribute strftime"
    | some prev_day =>
      let st := handle_eod_exits cfg (env.eodClose prev_day) res.1
      .report (generate_report cfg st)

/- ----------------------------------------------------------------
   Operation-sequence view of the ledger, for the state invariants:
   an arbitrary interleaving of entry attempts and EOD settlements,
   exactly the two mutators of cash / positions / trades in the source.
   ---------------------------------------------------------------- -/

/-- One ledger mutation: an entry attempt (_execute_trade) with the chain
snapshot it fetched, or an EOD settlement pass (_handle_eod_exits) with
the daily closes it can fetch. -/
inductive BtOp where
  | enter (option_chain : Option (List OptionContract)) (signal : Signal) (price : ℚ)
  | eod (env : String → Option ℚ)

/-- Apply one ledger mutation. -/
def applyOp (cfg : Config) (st : BtState) : BtOp → BtState
  | .enter option_chain signal price => execute_trade cfg option_chain signal price st
  | .eod env => handle_eod_exits cfg env st

/-- Run a sequence of ledger mutations from the fresh state. -/
def runOps (cfg : Config) (ops : List BtOp) : BtState :=
  ops.foldl (applyOp cfg) (initState cfg)

/-- Sum of pnl over CLOSED positions of the trade history. -/
def closedPnl (trades : List Position) : ℚ :=
  (trades.map (fun p => if p.status = "CLOSED" then p.pnl else 0)).sum

/-- Sum of margin_required over OPEN positions of the trade history. -/
def openMargin (trades : List Position) : ℚ :=
  (trades.map (fun p => if p.status = "OPEN" then p.margin_required else 0)).sum

/-- Proof-side companion of find_option_go's accumulator update: keep a
unless the candidate pair r has a strictly smaller key. -/
def mergeAcc (a : OptionContract × ℚ) (r : Option (OptionContract × ℚ)) :
    OptionContract × ℚ :=
  match r with
  | none => a
  | some c => if c.2 < a.2 then c else a

/-- Direct recursion equivalent to find_option_go's scan: the first
contract of the requested type attaining the minimal delta_diff,
together with that key. -/
def pickBest (target_delta : ℚ) (option_type : String) :
    List OptionContract → Option (OptionContract × ℚ)
  | [] => none
  | o :: rest =>
    if o.option_type = option_type then
      some (mergeAcc (o, delta_diff o target_delta) (pickBest target_delta option_type rest))
    else
      pickBest target_delta option_type rest

/-- Agreement of the four position fields that settlement must never
touch: strategy label, legs, entry premium, margin. -/
def fieldsEq (p q : Position) : Prop :=
  p.strategy = q.strategy ∧ p.legs = q.legs ∧
  p.entry_premium = q.entry_premium ∧ p.margin_required = q.margin_required

/- ----------------------------------------------------------------
   Concrete fixtures used by the witness theorems
   ---------------------------------------------------------------- -/

/-- A concrete configuration: 1 lakh capital, 10 percent per-trade cap,
20 percent stop loss, 80 percent take profit, VIX threshold 18. -/
def wCfg : Config :=
  ⟨100000, 1/10, 2/10, 8/10, 18⟩

/-- A 0.6-delta put contract. -/
def wP60 : OptionContract :=
  ⟨"P60", "PE", 100, 10, -6/10⟩

/-- A 0.3-delta put contract. -/
def wP30 : OptionContract :=
  ⟨"P30", "PE", 90, 4, -3/10⟩

/-- A two-contract put chain for a Bull Put Spread. -/
def wChainBPS : List OptionContract :=
  [wP60, wP30]

/-- Daily closes equal to the entry last-traded prices of wChainBPS. -/
def wEnvBPS : String → Option ℚ :=
  fun s => if s = "P60" then some 10 else if s = "P30" then some 4 else none

/-- Enter a Bull Put Spread on wChainBPS, then settle it on a day whose
closes equal the entry prices. -/
def wOpsBPS : List BtOp :=
  [.enter (some wChainBPS) ⟨"BUY", "Bull Put Spread"⟩ 100, .eod wEnvBPS]

/-- A 0.5-delta call contract. -/
def wCallSS : OptionContract :=
  ⟨"CALL100", "CE", 100, 10, 1/2⟩

/-- A 0.5-delta put contract. -/
def wPutSS : OptionContract :=
  ⟨"PUT100", "PE", 100, 8, -1/2⟩

/-- A two-contract chain for a Short Straddle. -/
def wChainSS : List OptionContract :=
  [wCallSS, wPutSS]

/-- The position _execute_trade creates for a Short Straddle on wChainSS. -/
def wPosSS : Position :=
  ⟨"Short Straddle", [⟨"SELL", wCallSS⟩, ⟨"SELL", wPutSS⟩], 18, 20, 0, "OPEN"⟩

/-- Daily closes for both straddle legs. -/
def wEnvSS : String → Option ℚ :=
  fun s => if s = "CALL100" then some 9 else if s = "PUT100" then some 7 else none

/-- Daily closes with the put leg's close unobtainable. -/
def wEnvMissing : String → Option ℚ :=
  fun s => if s = "CALL100" then some 9 else none

/-- A ledger holding one open straddle position. -/
def wStOpen : BtState :=
  ⟨99980, [0], [wPosSS]⟩

/-- One flat candle at timestamp 1000. -/
def wCandle : Candle :=
  ⟨1000, 1, 1, 1, 1, 1⟩

/-- An environment with no option chain and no daily closes. -/
def wEnv0 : Env :=
  ⟨fun _ => none, fun _ _ => none⟩

/-- Three candles with closes 1, 1, 2: a bullish crossover for periods
short 1 / long 2 / rsi 1. -/
def wDataC7 : List Candle :=
  [⟨0, 0, 0, 0, 1, 0⟩, ⟨1, 0, 0, 0, 1, 0⟩, ⟨2, 0, 0, 0, 2, 0⟩]

/- ----------------------------------------------------------------
   Helper lemmas
   ---------------------------------------------------------------- -/

theorem absQ_eq_abs (x : ℚ) : absQ x = |x| := by
  unfold absQ
  rcases lt_or_le x 0 with h | h
  · rw [if_pos h, abs_of_neg h]
  · rw [if_neg (not_lt.mpr h), abs_of_nonneg h]

theorem maxQ_eq_max (a b : ℚ) : maxQ a b = max a b := by
  unfold maxQ
  rcases le_or_lt a b with h | h
  · rw [if_pos h, max_eq_right h]
  · rw [if_neg (not_le.mpr h), max_eq_left h.le]

theorem foldl_preserves {α : Type} {β : Type} (P : α → Prop) (f : α → β → α)
    (hstep : ∀ a b, P a → P (f a b)) :
    ∀ (l : List β) (a : α), P a → P (l.foldl f a)
  | [], _, ha => ha
  | b :: l, a, ha => foldl_preserves P f hstep l (f a b) (hstep a b ha)

theorem sum_map_set (f : Position → ℚ) :
    ∀ (ts : List Position) (i : ℕ) (pos p' : Position), ts.get? i = some pos →
      ((ts.set i p').map f).sum = (ts.map f).sum - f pos + f p'
  | [], i, pos, p', h => by simp at h
  | hd :: tl, 0, pos, p', h => by
      simp only [List.get?] at h
      injection h with h
      subst h
      simp [List.set]
      ring
  | hd :: tl, i + 1, pos, p', h => by
      simp only [List.get?] at h
      have ih := sum_map_set f tl i pos p' h
      simp only [List.set, List.map_cons, List.sum_cons, ih]
      ring

theorem sum_map_append (f : Position → ℚ) (ts : List Position) (p : Position) :
    ((ts ++ [p]).map f).sum = (ts.map f).sum + f p := by
  simp

theorem open_ne_closed : ("OPEN" : String) ≠ "CLOSED" := by decide

theorem closed_ne_open : ("CLOSED" : String) ≠ "OPEN" := by decide

theorem execute_trade_cash (cfg : Config) (option_chain : Option (List OptionContract))
    (signal : Signal) (price : ℚ) (st : BtState)
    (h : st.cash = cfg.initial_capital + closedPnl st.trades - openMargin st.trades) :
    (execute_trade cfg option_chain signal price st).cash
      = cfg.initial_capital
        + closedPnl (execute_trade cfg option_chain signal price st).trades
        - openMargin (execute_trade cfg option_chain signal price st).trades := by
  unfold execute_trade
  split
  · exact h
  · split
    · exact h
    · split_ifs with h1 h2
      · exact h
      · exact h
      · simp only [closedPnl, openMargin, sum_map_append]
        simp only [if_true, ite_self]
        simp only [closedPnl, openMargin] at h
        rw [h]; ring

theorem settlePosition_cash (cfg : Config) (env : String → Option ℚ) (st : BtState) (idx : ℕ)
    (h : st.cash = cfg.initial_capital + closedPnl st.trades - openMargin st.trades) :
    (settlePosition cfg env st idx).cash
      = cfg.initial_capital
        + closedPnl (settlePosition cfg env st idx).trades
        - openMargin (settlePosition cfg env st idx).trades := by
  unfold settlePosition
  split
  · exact h
  · rename_i position hget
    split_ifs with hstat
    · split
      · exact h
      · rename_i cnp hsl
        dsimp only
        split
        · rename_i s hex
          simp only [closedPnl, openMargin, sum_map_set _ st.trades idx _ _ hget]
          simp only [hstat]
          simp only [if_neg open_ne_closed, if_neg closed_ne_open, if_true, ite_self]
          simp only [closedPnl, openMargin] at h
          rw [h]; ring
        · rename_i hex
          simp only [closedPnl, openMargin, sum_map_set _ st.trades idx _ _ hget]
          simp only [hstat]
          simp only [if_neg open_ne_closed, if_true, ite_self]
          simp only [closedPnl, openMargin] at h
          rw [h]; ring
    · exact h

theorem handle_eod_exits_cash (cfg : Config) (env : String → Option ℚ) (st : BtState)
    (h : st.cash = cfg.initial_capital + closedPnl st.trades - openMargin st.trades) :
    (handle_eod_exits cfg env st).cash
      = cfg.initial_capital
        + closedPnl (handle_eod_exits cfg env st).trades
        - openMargin (handle_eod_exits cfg env st).trades := by
  unfold handle_eod_exits
  exact foldl_preserves
    (fun s => s.cash = cfg.initial_capital + closedPnl s.trades - openMargin s.trades)
    (settlePosition cfg env)
    (fun s i hs => settlePosition_cash cfg env s i hs)
    st.openIdx st h

theorem applyOp_cash (cfg : Config) (st : BtState) (op : BtOp)
    (h : st.cash = cfg.initial_capital + closedPnl st.trades - openMargin st.trades) :
    (applyOp cfg st op).cash
      = cfg.initial_capital + closedPnl (applyOp cfg st op).trades
        - openMargin (applyOp cfg st op).trades := by
  cases op with
  | enter option_chain signal price => exact execute_trade_cash cfg option_chain signal price st h
  | eod env => exact handle_eod_exits_cash cfg env st h

theorem execute_trade_margin_pos (cfg : Config) (option_chain : Option (List OptionContract))
    (signal : Signal) (price : ℚ) (st : BtState)
    (h : ∀ p ∈ st.trades, 0 < p.margin_required) :
    ∀ p ∈ (execute_trade cfg option_chain signal price st).trades, 0 < p.margin_required := by
  unfold execute_trade
  split
  · exact h
  · split
    · exact h
    · split_ifs with h1 h2
      · exact h
      · exact h
      · intro p hp
        rcases List.mem_append.mp hp with hp | hp
        · exact h p hp
        · rcases List.mem_singleton.mp hp with rfl
          exact not_le.mp (fun hle => h1 (Or.inl hle))

theorem settlePosition_margin_pos (cfg : Config) (env : String → Option ℚ) (st : BtState)
    (idx : ℕ) (h : ∀ p ∈ st.trades, 0 < p.margin_required) :
    ∀ p ∈ (settlePosition cfg env st idx).trades, 0 < p.margin_required := by
  unfold settlePosition
  split
  · exact h
  · rename_i position hget
    split_ifs with hstat
    · split
      · exact h
      · rename_i cnp hsl
        dsimp only
        split
        · intro p hp
          rcases List.mem_or_eq_of_mem_set hp with hp | rfl
          · exact h p hp
          · exact h position (List.get?_mem hget)
        · intro p hp
          rcases List.mem_or_eq_of_mem_set hp with hp | rfl
          · exact h p hp
          · exact h position (List.get?_mem hget)
    · exact h

theorem applyOp_margin_pos (cfg : Config) (st : BtState) (op : BtOp)
    (h : ∀ p ∈ st.trades, 0 < p.margin_required) :
    ∀ p ∈ (applyOp cfg st op).trades, 0 < p.margin_required := by
  cases op with
  | enter option_chain signal price => exact execute_trade_margin_pos cfg option_chain signal price st h
  | eod env =>
    show ∀ p ∈ (handle_eod_exits cfg env st).trades, 0 < p.margin_required
    unfold handle_eod_exits
    exact foldl_preserves (fun s => ∀ p ∈ s.trades, 0 < p.margin_required)
      (settlePosition cfg env)
      (fun s i hs => settlePosition_margin_pos cfg env s i hs)
      st.openIdx st h

theorem fieldsEq_refl (p : Position) : fieldsEq p p :=
  ⟨rfl, rfl, rfl, rfl⟩

theorem fieldsEq_trans {p q r : Position} (h1 : fieldsEq p q) (h2 : fieldsEq q r) :
    fieldsEq p r :=
  ⟨h1.1.trans h2.1, h1.2.1.trans h2.2.1, h1.2.2.1.trans h2.2.2.1, h1.2.2.2.trans h2.2.2.2⟩

theorem settlePosition_frame (cfg : Config) (env : String → Option ℚ) (st : BtState)
    (idx : ℕ) (j : ℕ) (pos : Position) (h : st.trades.get? j = some pos) :
    ∃ pos', (settlePosition cfg env st idx).trades.get? j = some pos' ∧ fieldsEq pos pos' := by
  unfold settlePosition
  split
  · exact ⟨pos, h, fieldsEq_refl pos⟩
  · rename_i position hget
    split_ifs with hstat
    · split
      · exact ⟨pos, h, fieldsEq_refl pos⟩
      · rename_i cnp hsl
        dsimp only
        split
        · rename_i cnp2 hex
          by_cases hij : idx = j
          · subst hij
            rw [h] at hget
            injection hget with hget
            subst hget
            refine ⟨{ pos with pnl := pos.entry_premium - cnp, status := "CLOSED" },
              ?_, ⟨rfl, rfl, rfl, rfl⟩⟩
            rw [List.get?_set_eq, h]
            rfl
          · exact ⟨pos, by rw [List.get?_set_ne _ _ hij]; exact h, fieldsEq_refl pos⟩
        · by_cases hij : idx = j
          · subst hij
            rw [h] at hget
            injection hget with hget
            subst hget
            refine ⟨{ pos with pnl := pos.entry_premium - cnp },
              ?_, ⟨rfl, rfl, rfl, rfl⟩⟩
            rw [List.get?_set_eq, h]
            rfl
          · exact ⟨pos, by rw [List.get?_set_ne _ _ hij]; exact h, fieldsEq_refl pos⟩
    · exact ⟨pos, h, fieldsEq_refl pos⟩

theorem execute_trade_frame (cfg : Config) (option_chain : Option (List OptionContract))
    (signal : Signal) (price : ℚ) (st : BtState) (j : ℕ) (pos : Position)
    (h : st.trades.get? j = some pos) :
    ∃ pos', (execute_trade cfg option_chain signal price st).trades.get? j = some pos'
      ∧ fieldsEq pos pos' := by
  unfold execute_trade
  split
  · exact ⟨pos, h, fieldsEq_refl pos⟩
  · split
    · exact ⟨pos, h, fieldsEq_refl pos⟩
    · split_ifs with h1 h2
      · exact ⟨pos, h, fieldsEq_refl pos⟩
      · exact ⟨pos, h, fieldsEq_refl pos⟩
      · refine ⟨pos, ?_, fieldsEq_refl pos⟩
        have hlt : j < st.trades.length := (List.get?_eq_some.mp h).1
        rw [List.get?_append hlt]
        exact h

theorem applyOp_frame (cfg : Config) (st : BtState) (op : BtOp) (j : ℕ) (pos : Position)
    (h : st.trades.get? j = some pos) :
    ∃ pos', (applyOp cfg st op).trades.get? j = some pos' ∧ fieldsEq pos pos' := by
  cases op with
  | enter option_chain signal price => exact execute_trade_frame cfg option_chain signal price st j pos h
  | eod env =>
    show ∃ pos', (handle_eod_exits cfg env st).trades.get? j = some pos' ∧ fieldsEq pos pos'
    unfold handle_eod_exits
    exact foldl_preserves
      (fun s => ∃ pos', s.trades.get? j = some pos' ∧ fieldsEq pos pos')
      (settlePosition cfg env)
      (fun s i hs => by
        obtain ⟨q, hq, hfq⟩ := hs
        obtain ⟨q', hq', hfq'⟩ := settlePosition_frame cfg env s i j q hq
        exact ⟨q', hq', fieldsEq_trans hfq hfq'⟩)
      st.openIdx st ⟨pos, h, fieldsEq_refl pos⟩

theorem mergeAcc_assoc (a b : OptionContract × ℚ) (r : Option (OptionContract × ℚ)) :
    mergeAcc a (some (mergeAcc b r)) = mergeAcc (if b.2 < a.2 then b else a) r := by
  cases r with
  | none =>
    simp only [mergeAcc]
  | some c =>
    simp only [mergeAcc]
    split_ifs <;> first | rfl | (exfalso; linarith)

theorem find_option_go_some (target_delta : ℚ) (option_type : String) :
    ∀ (l : List OptionContract) (a : OptionContract × ℚ),
      find_option_go target_delta option_type l (some a)
        = some (mergeAcc a (pickBest target_delta option_type l))
  | [], a => by simp [find_option_go, pickBest, mergeAcc]
  | o :: rest, a => by
    by_cases hty : o.option_type = option_type
    · simp only [find_option_go, pickBest, if_pos hty]
      by_cases hlt : delta_diff o target_delta < a.2
      · rw [if_pos hlt]
        rw [find_option_go_some target_delta option_type rest (o, delta_diff o target_delta)]
        rw [mergeAcc_assoc a (o, delta_diff o target_delta) (pickBest target_delta option_type rest)]
        rw [if_pos hlt]
      · rw [if_neg hlt]
        rw [find_option_go_some target_delta option_type rest a]
        rw [mergeAcc_assoc a (o, delta_diff o target_delta) (pickBest target_delta option_type rest)]
        rw [if_neg hlt]
    · simp only [find_option_go, pickBest, if_neg hty]
      exact find_option_go_some target_delta option_type rest a

theorem find_option_go_none (target_delta : ℚ) (option_type : String) :
    ∀ (l : List OptionContract),
      find_option_go target_delta option_type l none = pickBest target_delta option_type l
  | [] => rfl
  | o :: rest => by
    by_cases hty : o.option_type = option_type
    · simp only [find_option_go, pickBest, if_pos hty]
      rw [find_option_go_some target_delta option_type rest (o, delta_diff o target_delta)]
    · simp only [find_option_go, pickBest, if_neg hty]
      exact find_option_go_none target_delta option_type rest

theorem pickBest_eq_none (t : ℚ) (ty : String) :
    ∀ l : List OptionContract, pickBest t ty l = none ↔ ∀ o ∈ l, o.option_type ≠ ty
  | [] => by simp [pickBest]
  | o :: rest => by
    by_cases hty : o.option_type = ty
    · simp only [pickBest, if_pos hty]
      constructor
      · intro h; exact Option.noConfusion h
      · intro h; exact absurd hty (h o (List.mem_cons_self o rest))
    · simp only [pickBest, if_neg hty]
      rw [pickBest_eq_none t ty rest]
      constructor
      · intro h q hq
        rcases List.mem_cons.mp hq with rfl | hq
        · exact hty
        · exact h q hq
      · intro h q hq
        exact h q (List.mem_cons_of_mem o hq)

theorem pickBest_spec (t : ℚ) (ty : String) :
    ∀ (l : List OptionContract) (c : OptionContract) (m : ℚ),
      pickBest t ty l = some (c, m) →
      m = delta_diff c t ∧ c.option_type = ty
        ∧ (∀ q ∈ l, q.option_type = ty → m ≤ delta_diff q t)
        ∧ ∃ l1 l2, l = l1 ++ c :: l2 ∧ ∀ q ∈ l1, q.option_type = ty → m < delta_diff q t
  | [], c, m, h => Option.noConfusion h
  | o :: rest, c, m, h => by
    by_cases hty : o.option_type = ty
    · rw [pickBest, if_pos hty] at h
      injection h with h
      cases hpb : pickBest t ty rest with
      | none =>
        rw [hpb] at h
        simp only [mergeAcc] at h
        injection h with h1 h2
        subst h1; subst h2
        refine ⟨rfl, hty, ?_, [], rest, rfl, by intro q hq; exact absurd hq (List.not_mem_nil q)⟩
        intro q hq hqty
        rcases List.mem_cons.mp hq with rfl | hq
        · exact le_refl _
        · exact absurd hqty ((pickBest_eq_none t ty rest).mp hpb q hq)
      | some p =>
        obtain ⟨c', m'⟩ := p
        have ih := pickBest_spec t ty rest c' m' hpb
        rw [hpb] at h
        simp only [mergeAcc] at h
        by_cases hlt : m' < delta_diff o t
        · rw [if_pos hlt] at h
          injection h with h1 h2
          subst h1; subst h2
          obtain ⟨ihm, ihty, ihmin, l1, l2, ihl, ihfirst⟩ := ih
          refine ⟨ihm, ihty, ?_, o :: l1, l2, by rw [ihl]; rfl, ?_⟩
          · intro q hq hqty
            rcases List.mem_cons.mp hq with rfl | hq
            · exact le_of_lt hlt
            · exact ihmin q hq hqty
          · intro q hq hqty
            rcases List.mem_cons.mp hq with rfl | hq
            · exact hlt
            · exact ihfirst q hq hqty
        · rw [if_neg hlt] at h
          injection h with h1 h2
          subst h1; subst h2
          obtain ⟨ihm, ihty, ihmin, _⟩ := ih
          refine ⟨rfl, hty, ?_, [], rest, rfl, by intro q hq; exact absurd hq (List.not_mem_nil q)⟩
          intro q hq hqty
          rcases List.mem_cons.mp hq with rfl | hq
          · exact le_refl _
          · exact le_trans (not_lt.mp hlt) (ihm ▸ ihmin q hq hqty)
    · rw [pickBest, if_neg hty] at h
      obtain ⟨ihm, ihty, ihmin, l1, l2, ihl, ihfirst⟩ := pickBest_spec t ty rest c m h
      refine ⟨ihm, ihty, ?_, o :: l1, l2, by rw [ihl]; rfl, ?_⟩
      · intro q hq hqty
        rcases List.mem_cons.mp hq with rfl | hq
        · exact absurd hqty hty
        · exact ihmin q hq hqty
      · intro q hq hqty
        rcases List.mem_cons.mp hq with rfl | hq
        · exact absurd hqty hty
        · exact ihfirst q hq hqty

theorem settleLegsAux_missing (env : String → Option ℚ) :
    ∀ (legs : List Leg) (acc : ℚ), (∃ leg ∈ legs, env leg.option.symbol = none) →
      settleLegsAux env acc legs = none
  | [], acc, h => by
    rcases h with ⟨leg, hl, _⟩
    exact absurd hl (List.not_mem_nil leg)
  | leg :: rest, acc, h => by
    unfold settleLegsAux
    cases henv : env leg.option.symbol with
    | none => rfl
    | some c =>
      rcases h with ⟨lg, hl, hnone⟩
      rcases List.mem_cons.mp hl with rfl | hl
      · rw [henv] at hnone
        exact Option.noConfusion hnone
      · exact settleLegsAux_missing env rest _ ⟨lg, hl, hnone⟩

theorem settleLegs_missing (env : String → Option ℚ) (legs : List Leg)
    (h : ∃ leg ∈ legs, env leg.option.symbol = none) : settleLegs env legs = none := by
  unfold settleLegs
  exact settleLegsAux_missing env legs 0 h

/- ----------------------------------------------------------------
   Claim theorems
   ---------------------------------------------------------------- -/

/-- C3: over any sequence of entry and settlement operations, the final
cash equals initial_capital plus the summed pnl of CLOSED positions minus
the summed margin_required of positions still OPEN: entry debits cash by
exactly margin_required, exit credits exactly margin_required + pnl, and
no other operation mutates cash. -/
theorem C3_cash_accounting (cfg : Config) (ops : List BtOp) :
    (runOps cfg ops).cash
      = cfg.initial_capital + closedPnl (runOps cfg ops).trades
        - openMargin (runOps cfg ops).trades := by
  unfold runOps
  refine foldl_preserves
    (fun s => s.cash = cfg.initial_capital + closedPnl s.trades - openMargin s.trades)
    (applyOp cfg) (fun s op hs => applyOp_cash cfg s op hs) ops (initState cfg) ?_
  simp [initState, closedPnl, openMargin]

/-- C4: an entry attempt whose margin_required is nonpositive, exceeds
current cash, or exceeds initial_capital times the allocation fraction is
rejected with the whole state (cash, open set, trade history) unchanged;
consequently every position ever admitted to the trade history has
margin_required greater than 0, at creation and ever after (the source
checks the three conditions in exactly this order, all three rejections
being the same bare return). -/
theorem C4_risk_gate :
    (∀ (cfg : Config) (st : BtState) (chain : List OptionContract) (signal : Signal)
        (price : ℚ) (trade_legs : List Leg) (net_premium margin_required : ℚ),
        resolve_legs chain signal.strategy = some (trade_legs, net_premium, margin_required) →
        (margin_required ≤ 0 ∨ margin_required > st.cash
          ∨ margin_required > cfg.initial_capital * cfg.capital_alloc) →
        execute_trade cfg (some chain) signal price st = st)
    ∧ (∀ (cfg : Config) (ops : List BtOp),
        ∀ p ∈ (runOps cfg ops).trades, 0 < p.margin_required) := by
  constructor
  · intro cfg st chain signal price trade_legs net_premium margin_required hr hrej
    unfold execute_trade
    dsimp only
    rw [hr]
    dsimp only
    rcases hrej with h | h | h
    · rw [if_pos (Or.inl h)]
    · rw [if_pos (Or.inr h)]
    · by_cases h1 : margin_required ≤ 0 ∨ margin_required > st.cash
      · rw [if_pos h1]
      · rw [if_neg h1, if_pos h]
  · intro cfg ops
    unfold runOps
    refine foldl_preserves (fun s => ∀ p ∈ s.trades, 0 < p.margin_required)
      (applyOp cfg) (fun s op hs => applyOp_margin_pos cfg s op hs) ops (initState cfg) ?_
    intro p hp
    exact absurd hp (List.not_mem_nil p)

/-- C4 witness: a strategy label matching no branch resolves to margin 0,
so the first gate condition fires and the entry leaves the fresh ledger
unchanged; and in the empty run every recorded position has positive
margin (vacuously). -/
theorem C4_witness :
    execute_trade wCfg (some []) ⟨"X", "Nope"⟩ 0 (initState wCfg) = initState wCfg
    ∧ ∀ p ∈ (runOps wCfg []).trades, 0 < p.margin_required :=
  ⟨C4_risk_gate.1 wCfg (initState wCfg) [] ⟨"X", "Nope"⟩ 0 [] 0 0
      (by with_unfolding_all decide) (Or.inl (le_refl 0)),
   C4_risk_gate.2 wCfg []⟩

/-- C5: at end-of-day settlement, a stored OPEN position one of whose
legs has no obtainable daily close is skipped entirely: the per-position
settlement step returns the state unchanged, so its pnl, its OPEN status,
its place in the open set, and cash are all untouched, and no partial
per-leg settlement is applied. -/
theorem C5_missing_leg_skips (cfg : Config) (env : String → Option ℚ)
    (st : BtState) (idx : ℕ) (position : Position)
    (hget : st.trades.get? idx = some position)
    (hopen : position.status = "OPEN")
    (hmiss : ∃ leg ∈ position.legs, env leg.option.symbol = none) :
    settlePosition cfg env st idx = st := by
  unfold settlePosition
  rw [hget]
  dsimp only
  rw [if_pos hopen, settleLegs_missing env position.legs hmiss]

/-- C5 witness: a straddle whose put leg has no daily close is skipped. -/
theorem C5_witness : settlePosition wCfg wEnvMissing wStOpen 0 = wStOpen :=
  C5_missing_leg_skips wCfg wEnvMissing wStOpen 0 wPosSS (by with_unfolding_all decide)
    (by with_unfolding_all decide)
    ⟨⟨"SELL", wPutSS⟩, by with_unfolding_all decide, by with_unfolding_all decide⟩

/-- C9: end-of-day settlement never mutates a position's strategy label,
legs, entry_net_premium or margin_required — only pnl and status (and
cash and the open set); consequently those four fields keep their
creation values across any further sequence of operations. -/
theorem C9_entry_fields_frozen :
    (∀ (cfg : Config) (env : String → Option ℚ) (st : BtState) (j : ℕ) (pos : Position),
        st.trades.get? j = some pos →
        ∃ pos', (handle_eod_exits cfg env st).trades.get? j = some pos' ∧ fieldsEq pos pos')
    ∧ (∀ (cfg : Config) (ops more : List BtOp) (j : ℕ) (pos : Position),
        (runOps cfg ops).trades.get? j = some pos →
        ∃ pos', (runOps cfg (ops ++ more)).trades.get? j = some pos' ∧ fieldsEq pos pos') := by
  constructor
  · intro cfg env st j pos h
    exact applyOp_frame cfg st (.eod env) j pos h
  · intro cfg ops more j pos h
    unfold runOps
    rw [List.foldl_append]
    refine foldl_preserves
      (fun s => ∃ pos', s.trades.get? j = some pos' ∧ fieldsEq pos pos')
      (applyOp cfg)
      (fun s op hs => by
        obtain ⟨q, hq, hfq⟩ := hs
        obtain ⟨q', hq', hfq'⟩ := applyOp_frame cfg s op j q hq
        exact ⟨q', hq', fieldsEq_trans hfq hfq'⟩)
      more _ ⟨pos, h, fieldsEq_refl pos⟩

/-- C9 witness: the straddle entered on wChainSS keeps its label, legs,
entry premium 18 and margin 20 across the settlement that closes it. -/
theorem C9_witness :
    ∃ pos', (runOps wCfg ([.enter (some wChainSS) ⟨"SELL", "Short Straddle"⟩ 100]
        ++ [.eod wEnvSS])).trades.get? 0 = some pos' ∧ fieldsEq wPosSS pos' :=
  C9_entry_fields_frozen.2 wCfg [.enter (some wChainSS) ⟨"SELL", "Short Straddle"⟩ 100]
    [.eod wEnvSS] 0 wPosSS (by with_unfolding_all decide)

/-- C6: the shared exit rule returns the stop-loss exit exactly when
pnl ≤ -sl_pct * entry_premium, otherwise the take-profit exit exactly
when pnl ≥ tp_pct * entry_premium, otherwise no exit; in particular with
entry premium 100 and sl_pct 0.2, pnl -25 yields "SL" (whatever tp_pct
is) and pnl -15 yields no exit for any positive tp_pct. -/
theorem C6_exit_rule (sl_pct tp_pct : ℚ) (position : Position) :
    (Strategy.check_exit_conditions sl_pct tp_pct position = some "SL"
       ↔ position.pnl ≤ -1 * sl_pct * position.entry_premium)
    ∧ (Strategy.check_exit_conditions sl_pct tp_pct position = some "TP"
       ↔ ¬ position.pnl ≤ -1 * sl_pct * position.entry_premium
           ∧ tp_pct * position.entry_premium ≤ position.pnl)
    ∧ (Strategy.check_exit_conditions sl_pct tp_pct position = none
       ↔ ¬ position.pnl ≤ -1 * sl_pct * position.entry_premium
           ∧ position.pnl < tp_pct * position.entry_premium)
    ∧ Strategy.check_exit_conditions (2/10) tp_pct
        { position with pnl := -25, entry_premium := 100 } = some "SL"
    ∧ (0 < tp_pct → Strategy.check_exit_conditions (2/10) tp_pct
        { position with pnl := -15, entry_premium := 100 } = none) := by
  refine ⟨?_, ?_, ?_, ?_, ?_⟩
  · unfold Strategy.check_exit_conditions
    split_ifs with h1 h2
    · exact iff_of_true rfl h1
    · exact iff_of_false (by decide) h1
    · exact iff_of_false (by decide) h1
  · unfold Strategy.check_exit_conditions
    split_ifs with h1 h2
    · exact iff_of_false (by decide) (fun hc => hc.1 h1)
    · exact iff_of_true rfl ⟨h1, h2⟩
    · exact iff_of_false (by decide) (fun hc => h2 hc.2)
  · unfold Strategy.check_exit_conditions
    split_ifs with h1 h2
    · exact iff_of_false (by decide) (fun hc => hc.1 h1)
    · exact iff_of_false (by decide) (fun hc => (not_le.mpr hc.2) h2)
    · exact iff_of_true rfl ⟨h1, not_le.mp h2⟩
  · unfold Strategy.check_exit_conditions
    dsimp only
    rw [if_pos (by norm_num : (-25 : ℚ) ≤ -1 * (2/10) * 100)]
  · intro htp
    have hpos : (0 : ℚ) < tp_pct * 100 := mul_pos htp (by norm_num)
    unfold Strategy.check_exit_conditions
    dsimp only
    rw [if_neg (by norm_num : ¬ (-15 : ℚ) ≤ -1 * (2/10) * 100),
        if_neg (not_le.mpr (by linarith : (-15 : ℚ) < tp_pct * 100))]

/-- C6 witness: at entry premium 100, sl 0.2, tp 0.8 the exit rule fires
stop-loss at pnl -25 and no exit at pnl -15. -/
theorem C6_witness :
    Strategy.check_exit_conditions (2/10) (8/10)
        { strategy := "Bull Put Spread", legs := [], entry_premium := 100,
          margin_required := 4, pnl := -25, status := "OPEN" } = some "SL"
    ∧ Strategy.check_exit_conditions (2/10) (8/10)
        { strategy := "Bull Put Spread", legs := [], entry_premium := 100,
          margin_required := 4, pnl := -15, status := "OPEN" } = none :=
  ⟨(C6_exit_rule (2/10) (8/10)
      { strategy := "Bull Put Spread", legs := [], entry_premium := 0,
        margin_required := 4, pnl := 0, status := "OPEN" }).2.2.2.1,
   (C6_exit_rule (2/10) (8/10)
      { strategy := "Bull Put Spread", legs := [], entry_premium := 0,
        margin_required := 4, pnl := 0, status := "OPEN" }).2.2.2.2 (by norm_num)⟩

/-- C8: the option selector returns a contract of the requested type
minimizing the distance of its absolute delta to the target, ties broken
in favor of the contract encountered first in snapshot order (every
earlier contract of the type has a strictly larger key), and returns
none exactly when the chain holds no contract of the requested type; it
is a pure function of (chain, target, type), hence deterministic. -/
theorem C8_find_option_spec (option_chain : List OptionContract) (target_delta : ℚ)
    (option_type : String) :
    (find_option option_chain target_delta option_type = none
       ↔ ∀ o ∈ option_chain, o.option_type ≠ option_type)
    ∧ (∀ o, find_option option_chain target_delta option_type = some o →
        o.option_type = option_type ∧ o ∈ option_chain
        ∧ (∀ q ∈ option_chain, q.option_type = option_type →
            delta_diff o target_delta ≤ delta_diff q target_delta)
        ∧ ∃ l1 l2, option_chain = l1 ++ o :: l2
            ∧ ∀ q ∈ l1, q.option_type = option_type →
                delta_diff o target_delta < delta_diff q target_delta) := by
  have hgo : find_option option_chain target_delta option_type
      = (pickBest target_delta option_type option_chain).map Prod.fst := by
    unfold find_option
    rw [find_option_go_none]
  constructor
  · rw [hgo, ← pickBest_eq_none target_delta option_type option_chain]
    cases pickBest target_delta option_type option_chain with
    | none => exact ⟨fun _ => rfl, fun _ => rfl⟩
    | some p => exact ⟨fun h => Option.noConfusion h, fun h => Option.noConfusion h⟩
  · intro o ho
    rw [hgo] at ho
    cases hpb : pickBest target_delta option_type option_chain with
    | none => rw [hpb] at ho; exact Option.noConfusion ho
    | some p =>
      obtain ⟨c, m⟩ := p
      rw [hpb] at ho
      rw [show Option.map Prod.fst (some (c, m)) = some c from rfl] at ho
      injection ho with ho
      subst ho
      obtain ⟨hm, hty, hmin, l1, l2, hl, hfirst⟩ :=
        pickBest_spec target_delta option_type option_chain c m hpb
      subst hm
      refine ⟨hty, ?_, hmin, l1, l2, hl, hfirst⟩
      rw [hl]
      exact List.mem_append_right l1 (List.mem_cons_self c l2)

/-- C8 witness: on the two-put chain, target 0.6 selects the 0.6-delta
put; it is a put, lies in the chain, and its key 0 is minimal. -/
theorem C8_witness :
    wP60.option_type = "PE" ∧ wP60 ∈ wChainBPS
    ∧ (∀ q ∈ wChainBPS, q.option_type = "PE" →
        delta_diff wP60 (6/10) ≤ delta_diff q (6/10))
    ∧ ∃ l1 l2, wChainBPS = l1 ++ wP60 :: l2
        ∧ ∀ q ∈ l1, q.option_type = "PE" →
            delta_diff wP60 (6/10) < delta_diff q (6/10) :=
  (C8_find_option_spec wChainBPS (6/10) "PE").2 wP60 (by with_unfolding_all decide)

/-- C10: at a loop step whose candle timestamp maps to a volatility value
of exactly 0, the truthiness test on the looked-up value fails, so the
non-directional check is skipped exactly as if the value were absent and
no Short Straddle entry is attempted at that step, whatever the
configured threshold (negative ones included): the step reduces to its
directional half, and replacing the 0 entry by an absent entry yields
the same state. -/
theorem C10_vix_zero_skipped (cfg : Config) (env : Env) (vmap : ℤ → Option ℚ)
    (data_slice : List Candle) (current_candle : Candle) (st : BtState)
    (h : vmap current_candle.ts = some 0) :
    loopStep cfg env vmap data_slice current_candle st
      = (match DirectionalStrategy.check_entry_signal 21 55 14 data_slice with
         | some dir_signal =>
             execute_trade cfg (env.chain current_candle.ts) dir_signal current_candle.close st
         | none => st)
    ∧ loopStep cfg env vmap data_slice current_candle st
      = loopStep cfg env (fun t => if t = current_candle.ts then none else vmap t)
          data_slice current_candle st := by
  constructor
  · unfold loopStep
    rw [h]
    simp [vixTruthy, bne_self_eq_false]
  · unfold loopStep
    rw [h]
    simp [vixTruthy, bne_self_eq_false]

/-- C10 witness: with an always-zero volatility map and threshold -1, a
step on an empty slice attempts no entry at all. -/
theorem C10_witness :
    loopStep ⟨100000, 1/10, 2/10, 8/10, -1⟩ wEnv0 (fun _ => some 0) [] wCandle
        (initState ⟨100000, 1/10, 2/10, 8/10, -1⟩)
      = initState ⟨100000, 1/10, 2/10, 8/10, -1⟩ :=
  ((C10_vix_zero_skipped ⟨100000, 1/10, 2/10, 8/10, -1⟩ wEnv0 (fun _ => some 0) [] wCandle
      (initState ⟨100000, 1/10, 2/10, 8/10, -1⟩) rfl).1).trans
    (by rw [show DirectionalStrategy.check_entry_signal 21 55 14 ([] : List Candle) = none by
          with_unfolding_all decide])

/-- C1 (claim refuted by the code, recorded as a code bug): entry pricing
signs a Bull Put Spread's net premium as sell minus buy (SELL positive),
while settlement signs closing prices SELL negative / BUY positive; with
every leg's close equal to its entry last-traded price the recomputed
current net premium is the negative of the entry premium, so the stored
pnl is twice the entry premium instead of the 0 the claim requires. -/
theorem C1_sign_flip_failing_input :
    (runOps wCfg wOpsBPS).trades.map (fun p => (p.entry_premium, p.pnl)) = [(6, 12)]
    ∧ (∀ p ∈ (runOps wCfg wOpsBPS).trades, p.pnl = 2 * p.entry_premium ∧ p.pnl ≠ 0) := by
  with_unfolding_all decide

/-- C2 (claim refuted by the code, recorded as a code bug): on a
non-empty underlying series shorter than the 55-candle long-MA lookback
(with a non-empty volatility series), every loop index is skipped,
prev_day is still None after the loop, and the unconditional final
settlement call raises AttributeError on None.strftime instead of
completing to a report. -/
theorem C2_short_series_crash :
    run_backtest wCfg wEnv0 (fun t => t / 86400) [wCandle] [wCandle]
      = .crashed "AttributeError: NoneType has no attribute strftime" := by
  with_unfolding_all decide

/-- C7: the directional generator returns no signal whenever the prefix
is shorter than any of the three configured periods; and whenever the
five consulted indicator values (last and previous short and long SMA,
last RSI) are all defined, it returns the Bull Put Spread signal exactly
when previous short ≤ previous long, current short > current long and
the oscillator exceeds 50, and symmetrically the Bear Call Spread signal
for the bearish crossover with the oscillator below 50. -/
theorem C7_directional_signal (s l r : ℕ) (data : List Candle) :
    ((data.length < s ∨ data.length < l ∨ data.length < r) →
       DirectionalStrategy.check_entry_signal s l r data = none)
    ∧ (∀ short_ma long_ma rsi,
        calculate_sma data s = some short_ma →
        calculate_sma data l = some long_ma →
        calculate_rsi data r = some rsi →
        ∀ a b a2 b2 c,
        ilocNeg short_ma 1 = some a → ilocNeg long_ma 1 = some b →
        ilocNeg short_ma 2 = some a2 → ilocNeg long_ma 2 = some b2 →
        ilocNeg rsi 1 = some c →
        ((DirectionalStrategy.check_entry_signal s l r data = some ⟨"BUY", "Bull Put Spread"⟩
            ↔ a2 ≤ b2 ∧ b < a ∧ 50 < c)
         ∧ (DirectionalStrategy.check_entry_signal s l r data = some ⟨"SELL", "Bear Call Spread"⟩
            ↔ b2 ≤ a2 ∧ a < b ∧ c < 50))) := by
  constructor
  · intro h
    unfold DirectionalStrategy.check_entry_signal
    split
    · rename_i short_ma long_ma rsi hs hl hr
      exfalso
      rcases h with h | h | h
      · simp only [calculate_sma, if_pos h] at hs
        exact Option.noConfusion hs
      · simp only [calculate_sma, if_pos h] at hl
        exact Option.noConfusion hl
      · simp only [calculate_rsi, if_pos h] at hr
        exact Option.noConfusion hr
    · rfl
  · intro short_ma long_ma rsi hsm hlm hrs a b a2 b2 c ha hb ha2 hb2 hc
    unfold DirectionalStrategy.check_entry_signal
    rw [hsm, hlm, hrs]
    dsimp only
    rw [ha, hb, ha2, hb2, hc]
    simp only [oLE, oLT, Bool.and_eq_true, decide_eq_true_eq, and_assoc]
    constructor
    · constructor
      · intro hres
        split_ifs at hres with hB hC
        · exact hB
        · exact absurd hres (by decide)
      · intro hB
        rw [if_pos hB]
    · constructor
      · intro hres
        split_ifs at hres with hB hC
        · exact absurd hres (by decide)
        · exact hC
      · intro hC
        have hB : ¬(a2 ≤ b2 ∧ b < a ∧ 50 < c) := by
          rintro ⟨_, hba, _⟩
          rcases hC with ⟨_, hab, _⟩
          linarith
        rw [if_neg hB, if_pos hC]

/-- C7 witness: on closes 1, 1, 2 with periods short 1 / long 2 / rsi 1,
the previous SMAs are 1 ≤ 1, the current short SMA 2 exceeds the current
long SMA 3/2, the RSI is 100 > 50, and the generator fires the Bull Put
Spread signal. -/
theorem C7_witness :
    DirectionalStrategy.check_entry_signal 1 2 1 wDataC7 = some ⟨"BUY", "Bull Put Spread"⟩ :=
  (((C7_directional_signal 1 2 1 wDataC7).2
      [some 1, some 1, some 2] [none, some 1, some (3/2)] [none, none, some 100]
      (by with_unfolding_all decide) (by with_unfolding_all decide)
      (by with_unfolding_all decide)
      2 (3/2) 1 1 100
      (by with_unfolding_all decide) (by with_unfolding_all decide)
      (by with_unfolding_all decide) (by with_unfolding_all decide)
      (by with_unfolding_all decide)).1).mpr (by norm_num)
